import Mathlib

/-!
Verification of the WebGL pentagon program (`three.js`).

The program's matrix module (`mat4`) stores 4x4 matrices as flat arrays of
16 numbers in column-major order.  We embed such an array as a structure
with one real field per array slot: field `eI` is element `out[I]` of the
`Float32Array`.  Machine floats are idealised as real numbers; the render
state, whose arithmetic is on exact decimal literals, is embedded over ℚ so
that its transitions are decidable.
-/

/-- A 4x4 matrix as the `mat4` module stores it: 16 scalars in column-major
order, field `eI` standing for array element `out[I]`. -/
@[ext]
structure Matrix4 where
  e0 : ℝ
  e1 : ℝ
  e2 : ℝ
  e3 : ℝ
  e4 : ℝ
  e5 : ℝ
  e6 : ℝ
  e7 : ℝ
  e8 : ℝ
  e9 : ℝ
  e10 : ℝ
  e11 : ℝ
  e12 : ℝ
  e13 : ℝ
  e14 : ℝ
  e15 : ℝ

namespace mat4

/-- `mat4.create`: the 4x4 identity matrix. -/
def create : Matrix4 :=
  ⟨1, 0, 0, 0,
   0, 1, 0, 0,
   0, 0, 1, 0,
   0, 0, 0, 1⟩

/-- `mat4.perspective(out, fovy, aspect, near, far)`: the symmetric
perspective projection matrix the code writes into `out`. -/
noncomputable def perspective (fovy aspect near far : ℝ) : Matrix4 :=
  let f := 1.0 / Real.tan (fovy / 2)
  ⟨f / aspect, 0, 0, 0,
   0, f, 0, 0,
   0, 0, (far + near) / (near - far), -1,
   0, 0, (2 * far * near) / (near - far), 0⟩

/-- `mat4.translate(out, a, v)`: copies elements 0..11 of `a` and writes the
translated fourth column into elements 12..15. -/
def translate (a : Matrix4) (v : ℝ × ℝ × ℝ) : Matrix4 :=
  let x := v.1
  let y := v.2.1
  let z := v.2.2
  ⟨a.e0, a.e1, a.e2, a.e3,
   a.e4, a.e5, a.e6, a.e7,
   a.e8, a.e9, a.e10, a.e11,
   a.e0 * x + a.e4 * y + a.e8 * z + a.e12,
   a.e1 * x + a.e5 * y + a.e9 * z + a.e13,
   a.e2 * x + a.e6 * y + a.e10 * z + a.e14,
   a.e3 * x + a.e7 * y + a.e11 * z + a.e15⟩

/-- `mat4.rotate(out, a, rad, axis)`: returns `none` for the code's
`return null` when the axis length is below `0.000001`; otherwise the matrix
written into `out` (elements 0..11 from the Rodrigues product, 12..15 copied
from `a`). -/
noncomputable def rotate (a : Matrix4) (rad : ℝ) (axis : ℝ × ℝ × ℝ) : Option Matrix4 :=
  let x0 := axis.1
  let y0 := axis.2.1
  let z0 := axis.2.2
  let len := Real.sqrt (x0 * x0 + y0 * y0 + z0 * z0)
  if len < 0.000001 then none else
  let linv := 1 / len
  let x := x0 * linv
  let y := y0 * linv
  let z := z0 * linv
  let s := Real.sin rad
  let c := Real.cos rad
  let t := 1 - c
  let b00 := x * x * t + c
  let b01 := y * x * t + z * s
  let b02 := z * x * t - y * s
  let b10 := x * y * t - z * s
  let b11 := y * y * t + c
  let b12 := z * y * t + x * s
  let b20 := x * z * t + y * s
  let b21 := y * z * t - x * s
  let b22 := z * z * t + c
  some ⟨a.e0 * b00 + a.e4 * b01 + a.e8 * b02,
        a.e1 * b00 + a.e5 * b01 + a.e9 * b02,
        a.e2 * b00 + a.e6 * b01 + a.e10 * b02,
        a.e3 * b00 + a.e7 * b01 + a.e11 * b02,
        a.e0 * b10 + a.e4 * b11 + a.e8 * b12,
        a.e1 * b10 + a.e5 * b11 + a.e9 * b12,
        a.e2 * b10 + a.e6 * b11 + a.e10 * b12,
        a.e3 * b10 + a.e7 * b11 + a.e11 * b12,
        a.e0 * b20 + a.e4 * b21 + a.e8 * b22,
        a.e1 * b20 + a.e5 * b21 + a.e9 * b22,
        a.e2 * b20 + a.e6 * b21 + a.e10 * b22,
        a.e3 * b20 + a.e7 * b21 + a.e11 * b22,
        a.e12, a.e13, a.e14, a.e15⟩

/-- The effect of `mat4.rotate(out, a, rad, axis)` on the caller-supplied
`out` buffer: on the degenerate-axis early return `out` is untouched,
otherwise it receives the rotated matrix. -/
noncomputable def rotateInto (buf a : Matrix4) (rad : ℝ) (axis : ℝ × ℝ × ℝ) : Matrix4 :=
  match rotate a rad axis with
  | none => buf
  | some m => m

end mat4

/-- Column-major product of two 4x4 matrices: element `4*j+i` of the result
is the dot product of row `i` of `a` with column `j` of `b`. -/
def matMul (a b : Matrix4) : Matrix4 :=
  ⟨a.e0 * b.e0 + a.e4 * b.e1 + a.e8 * b.e2 + a.e12 * b.e3,
   a.e1 * b.e0 + a.e5 * b.e1 + a.e9 * b.e2 + a.e13 * b.e3,
   a.e2 * b.e0 + a.e6 * b.e1 + a.e10 * b.e2 + a.e14 * b.e3,
   a.e3 * b.e0 + a.e7 * b.e1 + a.e11 * b.e2 + a.e15 * b.e3,
   a.e0 * b.e4 + a.e4 * b.e5 + a.e8 * b.e6 + a.e12 * b.e7,
   a.e1 * b.e4 + a.e5 * b.e5 + a.e9 * b.e6 + a.e13 * b.e7,
   a.e2 * b.e4 + a.e6 * b.e5 + a.e10 * b.e6 + a.e14 * b.e7,
   a.e3 * b.e4 + a.e7 * b.e5 + a.e11 * b.e6 + a.e15 * b.e7,
   a.e0 * b.e8 + a.e4 * b.e9 + a.e8 * b.e10 + a.e12 * b.e11,
   a.e1 * b.e8 + a.e5 * b.e9 + a.e9 * b.e10 + a.e13 * b.e11,
   a.e2 * b.e8 + a.e6 * b.e9 + a.e10 * b.e10 + a.e14 * b.e11,
   a.e3 * b.e8 + a.e7 * b.e9 + a.e11 * b.e10 + a.e15 * b.e11,
   a.e0 * b.e12 + a.e4 * b.e13 + a.e8 * b.e14 + a.e12 * b.e15,
   a.e1 * b.e12 + a.e5 * b.e13 + a.e9 * b.e14 + a.e13 * b.e15,
   a.e2 * b.e12 + a.e6 * b.e13 + a.e10 * b.e14 + a.e14 * b.e15,
   a.e3 * b.e12 + a.e7 * b.e13 + a.e11 * b.e14 + a.e15 * b.e15⟩

/-- The elementary translation matrix for a vector `[x, y, z]`: identity
with `[x, y, z, 1]` as its fourth column. -/
def translationMatrix (v : ℝ × ℝ × ℝ) : Matrix4 :=
  ⟨1, 0, 0, 0,
   0, 1, 0, 0,
   0, 0, 1, 0,
   v.1, v.2.1, v.2.2, 1⟩

/-- Application of a column-major matrix to a homogeneous point, as the
vertex shader computes `uProjectionMatrix * uModelViewMatrix * aVertexPosition`
(the uniforms are uploaded with `transpose = false`). -/
def applyMat4 (m : Matrix4) (v : ℝ × ℝ × ℝ × ℝ) : ℝ × ℝ × ℝ × ℝ :=
  (m.e0 * v.1 + m.e4 * v.2.1 + m.e8 * v.2.2.1 + m.e12 * v.2.2.2,
   m.e1 * v.1 + m.e5 * v.2.1 + m.e9 * v.2.2.1 + m.e13 * v.2.2.2,
   m.e2 * v.1 + m.e6 * v.2.1 + m.e10 * v.2.2.1 + m.e14 * v.2.2.2,
   m.e3 * v.1 + m.e7 * v.2.1 + m.e11 * v.2.2.1 + m.e15 * v.2.2.2)

/-- The last row of a `Matrix4` (column-major indices 3, 7, 11, 15) is
`[0, 0, 0, 1]`. -/
def lastRowAffine (m : Matrix4) : Prop :=
  m.e3 = 0 ∧ m.e7 = 0 ∧ m.e11 = 0 ∧ m.e15 = 1

/-- Vertex `i` of the polygon, as computed by the loop in `initBuffers`:
angle `i*2π/5 - π/2`, position `(centerX + r·cos, centerY + r·sin, 0)` with
both center coordinates 0.  The code fixes `radius = 0.8`; we keep the
radius as a parameter to state the spec's `buildRegularPolygon(5, r)`. -/
noncomputable def pentagonVertex (radius : ℝ) (i : ℕ) : ℝ × ℝ × ℝ :=
  let angle := (i * (2 * Real.pi) / 5) - (Real.pi / 2)
  (0 + radius * Real.cos angle, 0 + radius * Real.sin angle, 0)

/-- The vertex list built by `initBuffers` (5 loop iterations), with the
code's fixed `radius = 0.8` generalised to a parameter. -/
noncomputable def pentagonVertices (radius : ℝ) : List (ℝ × ℝ × ℝ) :=
  (List.range 5).map (pentagonVertex radius)

/-- The mutable state of `main` that the render loop and the UI event
handlers share: rotation angles and speeds, the pause flag, the current
RGBA color, and the CSS `display` value of the share section. -/
structure RenderState where
  rotationX : ℚ
  rotationY : ℚ
  rotationSpeedX : ℚ
  rotationSpeedY : ℚ
  isRotating : Bool
  color : ℚ × ℚ × ℚ × ℚ
  shareDisplay : String
deriving DecidableEq

/-- The blue preset `[0.2, 0.4, 0.8, 1.0]` (the initial color). -/
def blueColor : ℚ × ℚ × ℚ × ℚ := (0.2, 0.4, 0.8, 1.0)

/-- The red preset `[0.8, 0.2, 0.2, 1.0]`. -/
def redColor : ℚ × ℚ × ℚ × ℚ := (0.8, 0.2, 0.2, 1.0)

/-- The state `main` sets up before the first frame: angles 0, speeds 0.01
and 0.005, rotating, blue.  The share section's initial `display` comes from
the host page, so it stays a parameter. -/
def initialState (display0 : String) : RenderState :=
  { rotationX := 0
    rotationY := 0
    rotationSpeedX := 0.01
    rotationSpeedY := 0.005
    isRotating := true
    color := blueColor
    shareDisplay := display0 }

/-- One tick of `render()`: if `isRotating`, advance both angles by their
speeds; scheduling and drawing have no effect on the state. -/
def render (s : RenderState) : RenderState :=
  if s.isRotating then
    { s with rotationX := s.rotationX + s.rotationSpeedX
             rotationY := s.rotationY + s.rotationSpeedY }
  else s

/-- The `toggleRotation` click handler: flips `isRotating`. -/
def toggleRotation (s : RenderState) : RenderState :=
  { s with isRotating := !s.isRotating }

/-- The `changeColor` click handler: if the color's first three components
are exactly `0.2, 0.4, 0.8` it becomes the red preset, otherwise the blue
preset. -/
def changeColor (s : RenderState) : RenderState :=
  if s.color.1 = 0.2 ∧ s.color.2.1 = 0.4 ∧ s.color.2.2.1 = 0.8 then
    { s with color := redColor }
  else
    { s with color := blueColor }

/-- The `resetView` click handler: zeroes both rotation angles. -/
def resetView (s : RenderState) : RenderState :=
  { s with rotationX := 0, rotationY := 0 }

/-- The `shareButton` click handler: the share section's `display` becomes
`"block"` when it was `"none"` and `"none"` otherwise (the URL text it also
writes is not part of the render state). -/
def shareButton (s : RenderState) : RenderState :=
  { s with shareDisplay := if s.shareDisplay = "none" then "block" else "none" }


theorem changeColor_of_blue (s : RenderState)
    (h : s.color.1 = 0.2 ∧ s.color.2.1 = 0.4 ∧ s.color.2.2.1 = 0.8) :
    changeColor s = { s with color := redColor } := by
  rw [changeColor, if_pos h]

theorem changeColor_of_not_blue (s : RenderState)
    (h : ¬(s.color.1 = 0.2 ∧ s.color.2.1 = 0.4 ∧ s.color.2.2.1 = 0.8)) :
    changeColor s = { s with color := blueColor } := by
  rw [changeColor, if_neg h]

theorem render_iterate (s : RenderState) (hs : s.isRotating = true) (n : ℕ) :
    render^[n] s =
      { s with rotationX := s.rotationX + n * s.rotationSpeedX
               rotationY := s.rotationY + n * s.rotationSpeedY } := by
  induction n with
  | zero => simp
  | succ n ih =>
      rw [Function.iterate_succ_apply', ih]
      simp [render, hs, RenderState.mk.injEq]
      constructor <;> ring

/-- Claim C4: starting from rotation angles 0 with `isRotating = true`, after
`N` ticks of the render loop `rotationX = N * rotationSpeedX` and
`rotationY = N * rotationSpeedY` (exact in the ℚ model, which idealises the
floating-point accumulation), and the `resetView` handler returns both angles
to exactly 0 from any state whatsoever. -/
theorem C4_render_accumulation_and_reset (s : RenderState) (N : ℕ)
    (hx : s.rotationX = 0) (hy : s.rotationY = 0) (hr : s.isRotating = true) :
    ((render^[N] s).rotationX = N * s.rotationSpeedX ∧
      (render^[N] s).rotationY = N * s.rotationSpeedY) ∧
    ∀ t : RenderState, (resetView t).rotationX = 0 ∧ (resetView t).rotationY = 0 := by
  refine ⟨⟨?_, ?_⟩, fun t => ⟨rfl, rfl⟩⟩ <;>
    rw [render_iterate s hr N] <;> simp [hx, hy]

/-- Witness for C4 at the program's initial state and N = 3. -/
theorem C4_witness :
    ((render^[3] (initialState "none")).rotationX =
        3 * (initialState "none").rotationSpeedX ∧
      (render^[3] (initialState "none")).rotationY =
        3 * (initialState "none").rotationSpeedY) ∧
    ∀ t : RenderState, (resetView t).rotationX = 0 ∧ (resetView t).rotationY = 0 :=
  C4_render_accumulation_and_reset (initialState "none") 3 rfl rfl rfl

/-- Claim C5 counterexample: the toggle-pause handler is not idempotent;
applied twice to the initial state it gives back the state unchanged, not
the paused state one application produces. -/
theorem C5_counterexample :
    toggleRotation (toggleRotation (initialState "none")) ≠
      toggleRotation (initialState "none") := by
  intro h
  have hb := congrArg RenderState.isRotating h
  simp [toggleRotation, initialState] at hb

/-- Claim C5 (amended): only the reset-view handler is idempotent; the other
three handlers are period-two toggles, not idempotent mutations — toggling
pause twice restores the state exactly, and each of the toggle handlers
applied three times equals the handler applied once. -/
theorem C5_handlers_toggle_or_reset (s : RenderState) :
    resetView (resetView s) = resetView s ∧
    toggleRotation (toggleRotation s) = s ∧
    toggleRotation (toggleRotation (toggleRotation s)) = toggleRotation s ∧
    changeColor (changeColor (changeColor s)) = changeColor s ∧
    shareButton (shareButton (shareButton s)) = shareButton s := by
  refine ⟨rfl, by simp [toggleRotation], by simp [toggleRotation], ?_, ?_⟩
  · have hrb : changeColor { s with color := redColor } = { s with color := blueColor } := by
      rw [changeColor_of_not_blue { s with color := redColor } (by norm_num [redColor])]
    have hbr : changeColor { s with color := blueColor } = { s with color := redColor } := by
      rw [changeColor_of_blue { s with color := blueColor } ⟨rfl, rfl, rfl⟩]
    by_cases h : s.color.1 = 0.2 ∧ s.color.2.1 = 0.4 ∧ s.color.2.2.1 = 0.8
    · rw [changeColor_of_blue s h, hrb, hbr]
    · rw [changeColor_of_not_blue s h, hbr, hrb]
  · by_cases h : s.shareDisplay = "none"
    · simp [shareButton, h]
    · simp [shareButton, h]

/-- Claim C6: from the blue preset `[0.2, 0.4, 0.8, 1.0]`, one invocation of
the change-color handler yields the red preset `[0.8, 0.2, 0.2, 1.0]`, and a
second invocation returns the color exactly to the blue preset. -/
theorem C6_color_two_cycle (s : RenderState) (h : s.color = blueColor) :
    (changeColor s).color = redColor ∧
    (changeColor (changeColor s)).color = blueColor := by
  have hb : s.color.1 = 0.2 ∧ s.color.2.1 = 0.4 ∧ s.color.2.2.1 = 0.8 := by
    rw [h]; exact ⟨rfl, rfl, rfl⟩
  have h1 : changeColor s = { s with color := redColor } := changeColor_of_blue s hb
  have h2 : changeColor { s with color := redColor } = { s with color := blueColor } := by
    rw [changeColor_of_not_blue { s with color := redColor } (by norm_num [redColor])]
  exact ⟨by rw [h1], by rw [h1, h2]⟩

/-- Witness for C6 at the program's initial state. -/
theorem C6_witness :
    (changeColor (initialState "none")).color = redColor ∧
    (changeColor (changeColor (initialState "none"))).color = blueColor :=
  C6_color_two_cycle (initialState "none") rfl

/-- Claim C3: for every input matrix, angle, and axis whose Euclidean length
is below the epsilon 1e-6 (in particular the zero axis), `mat4.rotate`
returns the sentinel `none` (the code's `null`) and never a matrix. -/
theorem C3_degenerate_axis_returns_null (a : Matrix4) (rad : ℝ) (axis : ℝ × ℝ × ℝ)
    (h : Real.sqrt (axis.1 * axis.1 + axis.2.1 * axis.2.1 + axis.2.2 * axis.2.2) <
      0.000001) :
    mat4.rotate a rad axis = none := by
  simp only [mat4.rotate]
  rw [if_pos h]

/-- Witness for C3 at the zero axis. -/
theorem C3_witness : mat4.rotate mat4.create 1 (0, 0, 0) = none :=
  C3_degenerate_axis_returns_null mat4.create 1 (0, 0, 0)
    (by norm_num [Real.sqrt_zero])

/-- Claim C10: when the axis is degenerate (length below 1e-6) the
degenerate-axis check fires before any element of the output buffer is
written, so the caller's matrix comes back entirely unchanged and the
call signals failure with `none`. -/
theorem C10_degenerate_axis_leaves_buffer_unchanged (buf a : Matrix4) (rad : ℝ)
    (axis : ℝ × ℝ × ℝ)
    (h : Real.sqrt (axis.1 * axis.1 + axis.2.1 * axis.2.1 + axis.2.2 * axis.2.2) <
      0.000001) :
    mat4.rotateInto buf a rad axis = buf ∧ mat4.rotate a rad axis = none := by
  have hnone : mat4.rotate a rad axis = none := by
    simp only [mat4.rotate]
    rw [if_pos h]
  exact ⟨by rw [mat4.rotateInto, hnone], hnone⟩

/-- Witness for C10 at the zero axis, rotating the identity. -/
theorem C10_witness :
    mat4.rotateInto mat4.create mat4.create 1 (0, 0, 0) = mat4.create ∧
      mat4.rotate mat4.create 1 (0, 0, 0) = none :=
  C10_degenerate_axis_leaves_buffer_unchanged mat4.create mat4.create 1 (0, 0, 0)
    (by norm_num [Real.sqrt_zero])

/-- Claim C8: `mat4.translate` is exactly right-multiplication by the
elementary translation matrix, and it leaves elements 0..11 (the first three
matrix columns) of the input unchanged. -/
theorem C8_translate_right_multiplies (a : Matrix4) (v : ℝ × ℝ × ℝ) :
    mat4.translate a v = matMul a (translationMatrix v) ∧
    ((mat4.translate a v).e0 = a.e0 ∧ (mat4.translate a v).e1 = a.e1 ∧
      (mat4.translate a v).e2 = a.e2 ∧ (mat4.translate a v).e3 = a.e3 ∧
      (mat4.translate a v).e4 = a.e4 ∧ (mat4.translate a v).e5 = a.e5 ∧
      (mat4.translate a v).e6 = a.e6 ∧ (mat4.translate a v).e7 = a.e7 ∧
      (mat4.translate a v).e8 = a.e8 ∧ (mat4.translate a v).e9 = a.e9 ∧
      (mat4.translate a v).e10 = a.e10 ∧ (mat4.translate a v).e11 = a.e11) := by
  constructor
  · ext <;> simp [mat4.translate, matMul, translationMatrix]
  · exact ⟨rfl, rfl, rfl, rfl, rfl, rfl, rfl, rfl, rfl, rfl, rfl, rfl⟩

/-- Claim C9: the identity matrix has last row `[0,0,0,1]`; `translate` and a
successful `rotate` preserve that last row; the perspective projection matrix
instead has last row `[0,0,-1,0]`. -/
theorem C9_last_row_invariant :
    lastRowAffine mat4.create ∧
    (∀ (a : Matrix4) (v : ℝ × ℝ × ℝ),
        lastRowAffine a → lastRowAffine (mat4.translate a v)) ∧
    (∀ (a : Matrix4) (rad : ℝ) (axis : ℝ × ℝ × ℝ) (m : Matrix4),
        mat4.rotate a rad axis = some m → lastRowAffine a → lastRowAffine m) ∧
    (∀ fovy aspect near far : ℝ,
        (mat4.perspective fovy aspect near far).e3 = 0 ∧
        (mat4.perspective fovy aspect near far).e7 = 0 ∧
        (mat4.perspective fovy aspect near far).e11 = -1 ∧
        (mat4.perspective fovy aspect near far).e15 = 0) := by
  refine ⟨⟨rfl, rfl, rfl, rfl⟩, ?_, ?_, fun fovy aspect near far => ⟨rfl, rfl, rfl, rfl⟩⟩
  · rintro a v ⟨h3, h7, h11, h15⟩
    refine ⟨h3, h7, h11, ?_⟩
    show a.e3 * v.1 + a.e7 * v.2.1 + a.e11 * v.2.2 + a.e15 = 1
    rw [h3, h7, h11, h15]
    ring
  · intro a rad axis m hm hrow
    obtain ⟨h3, h7, h11, h15⟩ := hrow
    simp only [mat4.rotate] at hm
    split at hm
    · exact absurd hm (by simp)
    · obtain rfl : _ = m := Option.some.inj hm
      refine ⟨?_, ?_, ?_, h15⟩ <;>
        · show a.e3 * _ + a.e7 * _ + a.e11 * _ = 0
          rw [h3, h7, h11]
          ring

/-- Witness for C9: concrete instances through the theorem itself. -/
theorem C9_witness :
    lastRowAffine mat4.create ∧
      lastRowAffine (mat4.translate mat4.create (1, 2, -3)) :=
  ⟨C9_last_row_invariant.1,
    C9_last_row_invariant.2.1 mat4.create (1, 2, -3) C9_last_row_invariant.1⟩

/-- Claim C1, evaluated at the failing input: with the code's radius `0.8`
the loop builds 5 vertices, but vertex 0 has angle `-π/2` and therefore sits
at `(0, -0.8, 0)` — the bottom of the circle — not at the top `(0, 0.8, 0)`
that the claim (and the code's own `// Start from top` comment) state. -/
theorem C1_first_vertex_is_bottom :
    (pentagonVertices 0.8).length = 5 ∧
    (∀ p ∈ pentagonVertices 0.8, p.1 ^ 2 + p.2.1 ^ 2 = (0.8 : ℝ) ^ 2 ∧ p.2.2 = 0) ∧
    (pentagonVertices 0.8).head? = some ((0 : ℝ), -0.8, 0) ∧
    ((0 : ℝ), (-0.8 : ℝ), (0 : ℝ)) ≠ ((0 : ℝ), (0.8 : ℝ), (0 : ℝ)) := by
  have key : ∀ ang : ℝ,
      (0 + 0.8 * Real.cos ang) ^ 2 + (0 + 0.8 * Real.sin ang) ^ 2 = (0.8 : ℝ) ^ 2 :=
    fun ang => by linear_combination ((0.8 : ℝ) ^ 2) * Real.sin_sq_add_cos_sq ang
  have h0 : pentagonVertex 0.8 0 = ((0 : ℝ), -0.8, 0) := by
    simp [pentagonVertex, Real.cos_pi_div_two, Real.sin_pi_div_two]
  refine ⟨rfl, ?_, ?_, by norm_num⟩
  · intro p hp
    simp only [pentagonVertices, List.mem_map, List.mem_range] at hp
    obtain ⟨i, _, rfl⟩ := hp
    exact ⟨key _, rfl⟩
  · rw [show (pentagonVertices 0.8).head? = some (pentagonVertex 0.8 0) from rfl, h0]

/-- Claim C2: for `fov ∈ (0, π)`, `aspect > 0`, `0 < near < far`, the
perspective matrix maps a camera-space point with `z = -near` to clip-space
`z/w = -1` and a point with `z = -far` to clip-space `z/w = +1`. -/
theorem C2_perspective_near_far_planes (fovy aspect near far x y : ℝ)
    (_hfov0 : 0 < fovy) (_hfovpi : fovy < Real.pi) (_haspect : 0 < aspect)
    (hnear : 0 < near) (hnf : near < far) :
    (applyMat4 (mat4.perspective fovy aspect near far) (x, y, -near, 1)).2.2.1 /
        (applyMat4 (mat4.perspective fovy aspect near far) (x, y, -near, 1)).2.2.2 =
      -1 ∧
    (applyMat4 (mat4.perspective fovy aspect near far) (x, y, -far, 1)).2.2.1 /
        (applyMat4 (mat4.perspective fovy aspect near far) (x, y, -far, 1)).2.2.2 =
      1 := by
  have hnfne : near - far ≠ 0 := sub_ne_zero.mpr (ne_of_lt hnf)
  have hnne : near ≠ 0 := ne_of_gt hnear
  have hfne : far ≠ 0 := ne_of_gt (lt_trans hnear hnf)
  constructor
  · simp only [applyMat4, mat4.perspective]
    field_simp
    ring
  · simp only [applyMat4, mat4.perspective]
    field_simp
    ring

/-- Witness for C2 at `fov = 1`, `aspect = 1`, `near = 1`, `far = 2` and the
point `(5, 7)`. -/
theorem C2_witness :
    (applyMat4 (mat4.perspective 1 1 1 2) (5, 7, -1, 1)).2.2.1 /
        (applyMat4 (mat4.perspective 1 1 1 2) (5, 7, -1, 1)).2.2.2 = -1 ∧
    (applyMat4 (mat4.perspective 1 1 1 2) (5, 7, -2, 1)).2.2.1 /
        (applyMat4 (mat4.perspective 1 1 1 2) (5, 7, -2, 1)).2.2.2 = 1 :=
  C2_perspective_near_far_planes 1 1 1 2 5 7 (by norm_num)
    (by linarith [Real.pi_gt_three]) (by norm_num) (by norm_num) (by norm_num)

/-- Claim C7: axis-angle rotation composition is non-commutative: for every
angle θ that is not 0 or π modulo 2π, rotating the identity about X then Y
by θ differs from rotating about Y then X. -/
theorem C7_rotation_composition_not_commutative (θ : ℝ)
    (h0 : ∀ k : ℤ, θ ≠ k * (2 * Real.pi))
    (hpi : ∀ k : ℤ, θ ≠ Real.pi + k * (2 * Real.pi)) :
    (mat4.rotate mat4.create θ (1, 0, 0)).bind
        (fun m => mat4.rotate m θ (0, 1, 0)) ≠
      (mat4.rotate mat4.create θ (0, 1, 0)).bind
        (fun m => mat4.rotate m θ (1, 0, 0)) := by
  have hs : Real.sin θ ≠ 0 := by
    intro hsin
    obtain ⟨n, hn⟩ := Real.sin_eq_zero_iff.mp hsin
    rcases Int.even_or_odd n with ⟨m, hm⟩ | ⟨m, hm⟩
    · exact h0 m (by rw [← hn, hm]; push_cast; ring)
    · exact hpi m (by rw [← hn, hm]; push_cast; ring)
  intro heq
  have h4 := congrArg (Option.map Matrix4.e4) heq
  simp only [mat4.rotate, mat4.create] at h4
  norm_num [Real.sqrt_one] at h4
  exact hs h4

/-- Witness for C7 at θ = π/2. -/
theorem C7_witness :
    (mat4.rotate mat4.create (Real.pi / 2) (1, 0, 0)).bind
        (fun m => mat4.rotate m (Real.pi / 2) (0, 1, 0)) ≠
      (mat4.rotate mat4.create (Real.pi / 2) (0, 1, 0)).bind
        (fun m => mat4.rotate m (Real.pi / 2) (1, 0, 0)) :=
  C7_rotation_composition_not_commutative (Real.pi / 2)
    (by
      intro k hk
      have hz : (1 / 2 - 2 * (k : ℝ)) * Real.pi = 0 := by linear_combination hk
      rcases mul_eq_zero.mp hz with h | h
      · have h1 : (4 * (k : ℝ)) = 1 := by linarith
        have h2 : (4 * k : ℤ) = 1 := by exact_mod_cast h1
        omega
      · exact Real.pi_ne_zero h)
    (by
      intro k hk
      have hz : (-1 / 2 - 2 * (k : ℝ)) * Real.pi = 0 := by linear_combination hk
      rcases mul_eq_zero.mp hz with h | h
      · have h1 : (4 * (k : ℝ)) = -1 := by linarith
        have h2 : (4 * k : ℤ) = -1 := by exact_mod_cast h1
        omega
      · exact Real.pi_ne_zero h)
